import Mathlib

/-!
Verification of the tolerant-parsing core of `src/utils.py`
(`safe_json_load`, `decode_json_points`, `decode_json_bboxes`).

The Python code is shallowly embedded: Python JSON values become the
inductive type `Json`, `json.loads` becomes the fueled parser
`pyJsonLoads`, the three `re` substitutions of `safe_json_load` become
the recursive text transforms `fenceSearch`, `quoteFix` and
`stripComma`, and the two extraction loops become `pointsLoop` and
`bboxesLoop`, with Python exceptions made explicit in `Except PyErr`.
An exception that the extraction loop's `except (TypeError, ValueError)`
clause would catch is turned into a skip; any other exception is
returned as an `Except.error`, modelling a raise that escapes to the
caller.

Modelling notes (all irrelevant to the claims under study):
A parsed JSON number keeps Python's type split (`PyNum`): an integer
token becomes an arbitrary-precision `int`, a token with a fraction
or exponent becomes a `float`.  `float()` of an integer of magnitude
at least `2 ^ 1024 - 2 ^ 970` raises `OverflowError` — an exception
the extraction loops' `except (TypeError, ValueError)` clause does
not catch — and this path is modelled exactly (`intOverflows`).
Float values themselves are modelled exactly, as signed decimal
mantissa-exponent pairs (`PyFloat`), which the code only ever
constructs and emits — it performs no float arithmetic and no float
comparison.  Structural equality of `PyFloat` is finer than Python
float equality (it distinguishes the spellings `100.0` and `1e2`)
and exact where binary floats round or saturate (Python turns the
float token `1e999`, and `float()` of a numeric string denoting at
least about `1.8e308`, into `inf` without raising; the model keeps
the exact decimal, and neither raises); no claim depends on these
differences, nor on the `inf`/`nan` spellings accepted by Python's
`float()`, nor on its digit-group underscores.  Regex `\s` and
`str.strip` act on the ASCII whitespace characters (Unicode
whitespace is not modelled).  Python prints a parse diagnostic before
returning `None`; printing has no effect on any return value and is
dropped.
-/

namespace VLM

/-- The Python exception classes that can arise in the extraction code.
`TypeError` and `ValueError` are the two classes caught by the
`except (TypeError, ValueError)` clause of the extraction loops;
`KeyError` (subscripting a missing key) and `OverflowError`
(`float()` of an oversized integer) would escape that clause. -/
inductive PyErr where
| typeError : PyErr
| valueError : PyErr
| keyError : PyErr
| overflowError : PyErr
deriving DecidableEq

/-- A Python float, modelled exactly as the decimal value
`m * 10 ^ e`.  The code under study constructs floats from decimal
literals and never computes with them, so this exact representation
is faithful wherever a claim can observe it. -/
structure PyFloat where
  m : Int
  e : Int
deriving DecidableEq

/-- Shorthand constructor for a decimal float value `m * 10 ^ e`. -/
def pyF (m e : Int) : PyFloat := ⟨m, e⟩

/-- A number as `json.loads` returns it: an integer token (no
fraction, no exponent) becomes an arbitrary-precision Python `int`,
any other number token becomes a Python `float`.  The split matters
because `float()` of an oversized `int` raises `OverflowError` while
a `float` passes through unchanged. -/
inductive PyNum where
| int (n : Int) : PyNum
| float (x : PyFloat) : PyNum
deriving DecidableEq

/-- The smallest magnitude at which CPython's int-to-float conversion
overflows: round-to-nearest-even sends every integer of magnitude at
least `2 ^ 1024 - 2 ^ 970` to the unrepresentable `2 ^ 1024`, and
`float()` raises `OverflowError` there.  Written as its decimal
value so that elaboration never has to evaluate the large power;
`overflowBound_eq` below certifies the value. -/
def overflowBound : Nat := 179769313486231580793728971405303415079934132710037826936173778980444968292764750946649017977587207096330286416692887910946555547851940402630657488671505820681908902000708383676273854845817711531764475730270069855571366959622842914819860834936475292719074168444365510704342711559699508093042880177904174497792

/-- Does `float()` of this integer raise `OverflowError`? -/
def intOverflows (n : Int) : Bool := overflowBound ≤ n.natAbs

/-- Result of a Python JSON parse: mappings keep their keys unique and
in first-insertion order, as a CPython `dict` built by `json.loads`
does (a repeated key overwrites the value in place). -/
inductive Json where
| null : Json
| bool (b : Bool) : Json
| num (q : PyNum) : Json
| str (s : String) : Json
| arr (xs : List Json) : Json
| obj (kvs : List (String × Json)) : Json

/-- The single-quote character, written by code so that the source file
stays free of stray quote characters. -/
def squote : Char := '\x27'

/-- Left brace character. -/
def lbraceC : Char := '\x7b'

/-- Right brace character. -/
def rbraceC : Char := '\x7d'

/-- The whitespace accepted between JSON tokens by `json.loads`
(`' '`, `'\t'`, `'\n'`, `'\r'`). -/
def isJsonWs (c : Char) : Bool :=
  c = ' ' || c = '\t' || c = '\n' || c = '\r'

/-- The ASCII characters matched by the regex class `\s`
(also form feed and vertical tab). -/
def isReWs (c : Char) : Bool :=
  isJsonWs c || c = '\x0b' || c = '\x0c'

/-- Skip JSON inter-token whitespace. -/
def skipW (l : List Char) : List Char := l.dropWhile isJsonWs

/-- Numeric value of a decimal digit string (most significant first). -/
def digitsToNat (ds : List Char) : Nat :=
  ds.foldl (fun a c => a * 10 + (c.toNat - 48)) 0

/-- Value of a hexadecimal digit, if any. -/
def hexVal (c : Char) : Option Nat :=
  if c.isDigit then some (c.toNat - 48)
  else if 97 ≤ c.toNat && c.toNat ≤ 102 then some (c.toNat - 87)
  else if 65 ≤ c.toNat && c.toNat ≤ 70 then some (c.toNat - 55)
  else none

/-- Insert a key into an association list with CPython `dict`
semantics: an existing key keeps its position and gets the new value,
a new key is appended. -/
def insertKey (kvs : List (String × Json)) (k : String) (v : Json) :
    List (String × Json) :=
  if kvs.any (fun p => p.1 = k) then
    kvs.map (fun p => if p.1 = k then (k, v) else p)
  else kvs ++ [(k, v)]

/-- Body of a JSON string literal, after the opening quote: scan until
the closing quote, decoding the escapes `json.loads` accepts and
rejecting unescaped control characters (strict mode).  The first
argument accumulates decoded characters in reverse. -/
def parseStrAux : List Char → List Char → Option (String × List Char)
| _, [] => none
| acc, c :: rest =>
  if c = '"' then some (⟨acc.reverse⟩, rest)
  else if c = '\\' then
    match rest with
    | [] => none
    | e :: r2 =>
      if e = '"' then parseStrAux ('"' :: acc) r2
      else if e = '\\' then parseStrAux ('\\' :: acc) r2
      else if e = '/' then parseStrAux ('/' :: acc) r2
      else if e = 'b' then parseStrAux ('\x08' :: acc) r2
      else if e = 'f' then parseStrAux ('\x0c' :: acc) r2
      else if e = 'n' then parseStrAux ('\n' :: acc) r2
      else if e = 'r' then parseStrAux ('\r' :: acc) r2
      else if e = 't' then parseStrAux ('\t' :: acc) r2
      else if e = 'u' then
        match r2 with
        | h1 :: h2 :: h3 :: h4 :: r3 =>
          match hexVal h1, hexVal h2, hexVal h3, hexVal h4 with
          | some a, some b, some c2, some d =>
            parseStrAux (Char.ofNat (a * 4096 + b * 256 + c2 * 16 + d) :: acc) r3
          | _, _, _, _ => none
        | _ => none
      else none
  else if c.toNat < 32 then none
  else parseStrAux (c :: acc) rest

/-- JSON string literal after its opening quote. -/
def parseStr (l : List Char) : Option (String × List Char) :=
  parseStrAux [] l

/-- Run of decimal digits and the remaining input. -/
def spanDigits (l : List Char) : List Char × List Char :=
  l.span Char.isDigit

/-- The decimal value denoted by sign, integer digits, fraction
digits and decimal exponent. -/
def decimalOf (sgn : Int) (ip : Nat) (frac : List Char) (e : Int) : PyFloat :=
  ⟨sgn * ((ip * 10 ^ frac.length + digitsToNat frac : Nat) : Int),
   e - (frac.length : Int)⟩

/-- Build the parsed number.  Python's decoder applies `parse_float`
when the token has a fraction or exponent part and `parse_int`
otherwise, so `isFloat` records whether either part was present;
an integer token always has `frac = []` and `e = 0`. -/
def mkNum (isFloat : Bool) (sgn : Int) (ip : Nat) (frac : List Char)
    (e : Int) : Json :=
  if isFloat then .num (.float (decimalOf sgn ip frac e))
  else .num (.int (sgn * (ip : Int)))

/-- Exponent part of a JSON number, after the `e`/`E`:
optional sign, then at least one digit. -/
def parseExp (l : List Char) : Option (Int × List Char) :=
  let (sgn, l1) : Int × List Char :=
    match l with
    | '+' :: r => (1, r)
    | '-' :: r => (-1, r)
    | _ => (1, l)
  let (ds, r2) := spanDigits l1
  if ds.isEmpty then none else some (sgn * (digitsToNat ds : Int), r2)

/-- Optional exponent after the integer and fraction parts of a JSON
number; `hasFrac` records whether a fraction part was present, and an
exponent also makes the token a float. -/
def parseExpPart (hasFrac : Bool) (sgn : Int) (ip : Nat) (frac : List Char)
    (l : List Char) : Option (Json × List Char) :=
  match l with
  | c :: r2 =>
    if c = 'e' || c = 'E' then
      match parseExp r2 with
      | some (e, r3) => some (mkNum true sgn ip frac e, r3)
      | none => none
    else some (mkNum hasFrac sgn ip frac 0, l)
  | [] => some (mkNum hasFrac sgn ip frac 0, [])

/-- Optional fraction then optional exponent of a JSON number, after
the integer part. -/
def parseFracExp (sgn : Int) (ip : Nat) (l : List Char) :
    Option (Json × List Char) :=
  match l with
  | '.' :: r =>
    let (frac, l1) := spanDigits r
    if frac.isEmpty then none else parseExpPart true sgn ip frac l1
  | _ => parseExpPart false sgn ip [] l

/-- A JSON number token, per the number regex of Python's `json`
module: optional minus, then `0` or a nonzero-led digit run, optional
fraction, optional exponent.  (`NaN` and `Infinity`, which Python's
decoder also accepts, have no decimal value and are unparsed here;
no claim involves them.) -/
def parseNum (l : List Char) : Option (Json × List Char) :=
  let (sgn, l1) : Int × List Char :=
    match l with
    | '-' :: r => (-1, r)
    | _ => (1, l)
  match l1 with
  | c :: rest =>
    if c = '0' then parseFracExp sgn 0 rest
    else if c.isDigit then
      let (ds, r2) := spanDigits rest
      parseFracExp sgn (digitsToNat (c :: ds)) r2
    else none
  | [] => none

mutual

/-- One JSON value, as decoded by `json.loads`, with the remaining
input.  The fuel argument only bounds recursion depth; every concrete
run is started with more fuel than the input length can consume. -/
def parseVal : Nat → List Char → Option (Json × List Char)
| 0, _ => none
| Nat.succ fu, l =>
  match l with
  | [] => none
  | 't' :: 'r' :: 'u' :: 'e' :: rest => some (.bool true, rest)
  | 'f' :: 'a' :: 'l' :: 's' :: 'e' :: rest => some (.bool false, rest)
  | 'n' :: 'u' :: 'l' :: 'l' :: rest => some (.null, rest)
  | '"' :: rest =>
    match parseStr rest with
    | some (s, r) => some (.str s, r)
    | none => none
  | c :: rest =>
    if c = lbraceC then
      match skipW rest with
      | c2 :: r2 =>
        if c2 = rbraceC then some (.obj [], r2)
        else parseMembers fu [] (skipW rest)
      | [] => none
    else if c = '[' then
      match skipW rest with
      | c2 :: r2 =>
        if c2 = ']' then some (.arr [], r2)
        else parseItemsArr fu [] (skipW rest)
      | [] => none
    else parseNum (c :: rest)

/-- Members of a JSON object after at least one is known to follow:
string key, colon, value, then comma-separated repetition until the
closing brace. -/
def parseMembers : Nat → List (String × Json) → List Char →
    Option (Json × List Char)
| 0, _, _ => none
| Nat.succ fu, acc, l =>
  match l with
  | '"' :: rest =>
    match parseStr rest with
    | some (k, r1) =>
      match skipW r1 with
      | ':' :: r2 =>
        match parseVal fu (skipW r2) with
        | some (v, r3) =>
          let acc2 := insertKey acc k v
          match skipW r3 with
          | ',' :: r4 => parseMembers fu acc2 (skipW r4)
          | c5 :: r5 => if c5 = rbraceC then some (.obj acc2, r5) else none
          | [] => none
        | none => none
      | _ => none
    | none => none
  | _ => none

/-- Elements of a JSON array after at least one is known to follow. -/
def parseItemsArr : Nat → List Json → List Char →
    Option (Json × List Char)
| 0, _, _ => none
| Nat.succ fu, acc, l =>
  match parseVal fu l with
  | some (v, r1) =>
    match skipW r1 with
    | ',' :: r2 => parseItemsArr fu (acc ++ [v]) (skipW r2)
    | c :: r3 => if c = ']' then some (.arr (acc ++ [v]), r3) else none
    | [] => none
  | none => none

end

/-- Model of Python's `json.loads` on a character list: parse one JSON
document, allowing only whitespace around it.  The fuel bound
`4 * length + 16` exceeds the recursion depth any input can force,
since every recursive call follows the consumption of at least one
input character (and at most four calls follow each). -/
def pyJsonLoads (l : List Char) : Option Json :=
  match parseVal (4 * l.length + 16) (skipW l) with
  | some (v, r) => if (skipW r).isEmpty then some v else none
  | none => none

/-- Model of `json.loads` on a string. -/
def pyJsonLoadsStr (t : String) : Option Json := pyJsonLoads t.data

/-- Does `pat` occur at the head of `l`? -/
def startsWithL : List Char → List Char → Bool
| [], _ => true
| _ :: _, [] => false
| p :: ps, c :: cs => p = c && startsWithL ps cs

/-- The opening marker of the fence regex `(three backticks)json`. -/
def fenceTag : List Char := "```json".data

/-- The closing marker of the fence regex (three backticks). -/
def closeTicks : List Char := "```".data

/-- Strip trailing regex whitespace. -/
def dropTrailingWs (l : List Char) : List Char :=
  (l.reverse.dropWhile isReWs).reverse

/-- Characters before the first occurrence of the closing backticks,
or `none` when no closing marker follows.  Models the lazy group
`(.*?)` of the fence regex under `re.DOTALL`: the group is extended
one character at a time until the rest of the pattern matches, so it
stops at the first closing marker. -/
def fenceBody : List Char → Option (List Char)
| [] => none
| c :: rest =>
  if startsWithL closeTicks (c :: rest) then some []
  else (fenceBody rest).map (fun b => c :: b)

/-- Model of `re.search` for the fence pattern: try each start
position from the left; at a position where the opening marker
matches, greedily skip whitespace, capture lazily up to the first
closing backticks and strip the captured group (the greedy inner
whitespace atoms of the pattern already trim it; the code's
`.strip()` of the group is then the identity). -/
def fenceSearch : List Char → Option (List Char)
| [] => none
| c :: rest =>
  match (if startsWithL fenceTag (c :: rest) then
           (fenceBody (((c :: rest).drop fenceTag.length).dropWhile isReWs)).map
             dropTrailingWs
         else none) with
  | some b => some b
  | none => fenceSearch rest

mutual

/-- Model of `re.sub` for the quote-repair pattern
`quote([^quote]*)quote`: scanning left to right, an opening single
quote with a closing single quote somewhere ahead starts a span;
both delimiting quotes become double quotes and scanning resumes
after the span.  A single quote with no partner is left alone. -/
def quoteFix : List Char → List Char
| [] => []
| c :: rest =>
  if c = squote && rest.contains squote then '"' :: quoteSpan rest
  else c :: quoteFix rest

/-- Inside a single-quoted span: copy characters until the closing
quote, which becomes a double quote. -/
def quoteSpan : List Char → List Char
| [] => []
| c :: rest =>
  if c = squote then '"' :: quoteFix rest else c :: quoteSpan rest

end

/-- Is the next non-whitespace character `close`, with only regex
whitespace before it? -/
def wsCloseAt (close : Char) (l : List Char) : Bool :=
  match l.dropWhile isReWs with
  | c :: _ => c = close
  | [] => false

/-- Input remaining after a whitespace run and the closing character. -/
def afterWsClose (l : List Char) : List Char :=
  (l.dropWhile isReWs).tail


/-- One pass of the trailing-comma substitution, fueled so that the
recursion is structural (the fuel only bounds the number of steps;
`stripComma` below always supplies enough). -/
def stripCommaF (close : Char) : Nat → List Char → List Char
| _, [] => []
| 0, l => l
| Nat.succ fu, c :: rest =>
  if c = ',' && wsCloseAt close rest then
    close :: stripCommaF close fu (afterWsClose rest)
  else c :: stripCommaF close fu rest

/-- Model of `re.sub` for a trailing-comma pattern `,\s*close`:
scanning left to right, a comma followed by a whitespace run and then
the closing character is replaced by the closing character alone, and
scanning resumes after the consumed region.  Each step consumes at
least one character, so the input length is always enough fuel. -/
def stripComma (close : Char) (l : List Char) : List Char :=
  stripCommaF close l.length l

/-- The two regex substitutions and the `json.loads` call of
`safe_json_load`, after the working text has been fixed: quote repair,
then `,\s*(rbrace)`, then `,\s*]`, then parse. -/
def repairParse (l : List Char) : Option Json :=
  pyJsonLoads (stripComma ']' (stripComma rbraceC (quoteFix l)))

/-- Model of `safe_json_load` of `src/utils.py`: extract the first
fenced `json` block if one exists, repair quotes and trailing commas,
and parse; a parse failure is reported and becomes `none`. -/
def safe_json_load (text : String) : Option Json :=
  match fenceSearch text.data with
  | some c => repairParse c
  | none => repairParse text.data

/-- Python truthiness of a JSON value (`if not data`): `None`,
`False`, zero, and empty containers and strings are falsy. -/
def pyTruthy : Json → Bool
| .null => false
| .bool b => b
| .num (.int n) => n != 0
| .num (.float x) => x.m != 0
| .str s => s != ""
| .arr xs => !xs.isEmpty
| .obj kvs => !kvs.isEmpty

/-- Rendering of a decimal value for `str()` of a numeric label.
Python renders floats in its shortest-repr decimal; this scientific
rendering can differ textually, and no claim stringifies a numeric
label. -/
def floatStr (x : PyFloat) : String :=
  if x.e = 0 then toString x.m
  else toString x.m ++ "e" ++ toString x.e

mutual

/-- Python `repr` of a parsed JSON value, as used inside `str` of a
container (single-quoted strings, `None`/`True`/`False`). -/
def pyRepr : Json → String
| .null => "None"
| .bool true => "True"
| .bool false => "False"
| .num (.int n) => toString n
| .num (.float x) => floatStr x
| .str s => String.singleton squote ++ s ++ String.singleton squote
| .arr xs => "[" ++ String.intercalate ", " (reprList xs) ++ "]"
| .obj kvs =>
  String.singleton lbraceC ++ String.intercalate ", " (reprPairs kvs) ++
    String.singleton rbraceC

/-- The `repr` of each element of a list. -/
def reprList : List Json → List String
| [] => []
| j :: rest => pyRepr j :: reprList rest

/-- The `repr` of each `key: value` entry of a mapping. -/
def reprPairs : List (String × Json) → List String
| [] => []
| (k, v) :: rest =>
  (String.singleton squote ++ k ++ String.singleton squote ++ ": " ++ pyRepr v) ::
    reprPairs rest

end

/-- Python `str()` of a parsed JSON value: a string is itself, other
values render as their `repr`. -/
def pyStr : Json → String
| .str s => s
| j => pyRepr j

/-- Does `pat` occur as a contiguous substring (Python `in` on
strings)? -/
def hasSub (pat : List Char) : List Char → Bool
| [] => pat.isEmpty
| c :: rest => startsWithL pat (c :: rest) || hasSub pat rest

/-- Python `key in item` for the values that can appear as payload
elements: mappings test key membership, strings test substrings,
lists test element equality with the key; numbers, booleans and
`None` are not containers and raise `TypeError`. -/
def pyContains (key : String) : Json → Except PyErr Bool
| .obj kvs => .ok (kvs.any (fun p => p.1 == key))
| .str s => .ok (hasSub key.data s.data)
| .arr xs => .ok (xs.any (fun x => match x with | .str t => t == key | _ => false))
| .num _ => .error .typeError
| .bool _ => .error .typeError
| .null => .error .typeError

/-- Python `item[key]` with a string key: mapping lookup (keys are
unique after parsing); a missing key raises `KeyError`; lists and
strings reject string indices with `TypeError`, as do scalars. -/
def pySubscript : Json → String → Except PyErr Json
| .obj kvs, key =>
  match kvs.find? (fun p => p.1 == key) with
  | some p => .ok p.2
  | none => .error .keyError
| _, _ => .error .typeError

/-- Python `item.get(key)` on a mapping (the only type the code calls
it on, since a record has already been subscripted successfully). -/
def pyDictGet : Json → String → Option Json
| .obj kvs, key => (kvs.find? (fun p => p.1 == key)).map Prod.snd
| _, _ => none

/-- Python tuple unpacking `x, y = v`: a 2-element list yields its
elements, a 2-character string its characters, a 2-key mapping its
keys; other arities raise `ValueError` and non-iterables
`TypeError`. -/
def unpack2 : Json → Except PyErr (Json × Json)
| .arr [a, b] => .ok (a, b)
| .arr _ => .error .valueError
| .str s =>
  match s.data with
  | [a, b] => .ok (.str (String.singleton a), .str (String.singleton b))
  | _ => .error .valueError
| .obj [(k1, _), (k2, _)] => .ok (.str k1, .str k2)
| .obj _ => .error .valueError
| .num _ => .error .typeError
| .bool _ => .error .typeError
| .null => .error .typeError

/-- Python `len()`: defined for lists, strings and mappings;
`TypeError` otherwise. -/
def pyLen : Json → Except PyErr Nat
| .arr xs => .ok xs.length
| .str s => .ok s.length
| .obj kvs => .ok kvs.length
| .num _ => .error .typeError
| .bool _ => .error .typeError
| .null => .error .typeError

/-- Python iteration over a value: a list yields its elements, a
string its characters, a mapping its keys; `TypeError` otherwise. -/
def pyIterate : Json → Except PyErr (List Json)
| .arr xs => .ok xs
| .str s => .ok (s.data.map (fun c => .str (String.singleton c)))
| .obj kvs => .ok (kvs.map (fun p => Json.str p.1))
| .num _ => .error .typeError
| .bool _ => .error .typeError
| .null => .error .typeError

/-- The payload sequence iterated by the extraction loops:
`if isinstance(data, dict): data = [data]` wraps a mapping, any other
value is iterated directly. -/
def pyToItems : Json → Except PyErr (List Json)
| .obj kvs => .ok [.obj kvs]
| d => pyIterate d

/-- Would `except (TypeError, ValueError)` catch this exception? -/
def caughtErr : PyErr → Bool
| .typeError => true
| .valueError => true
| .keyError => false
| .overflowError => false

/-- Exponent then end of input, for a Python float literal. -/
def pyFloatExp (sgn : Int) (ip : Nat) (frac : List Char) :
    List Char → Option PyFloat
| [] => some (decimalOf sgn ip frac 0)
| c :: r =>
  if c = 'e' || c = 'E' then
    match parseExp r with
    | some (e, r2) => if r2.isEmpty then some (decimalOf sgn ip frac e) else none
    | none => none
  else none

/-- Mantissa of a Python float literal: digits with an optional dot on
either side, at least one digit in total. -/
def pyFloatBody (sgn : Int) (l : List Char) : Option PyFloat :=
  let (ip, l1) := spanDigits l
  match l1 with
  | '.' :: r =>
    let (fp, l2) := spanDigits r
    if ip.isEmpty && fp.isEmpty then none
    else pyFloatExp sgn (digitsToNat ip) fp l2
  | _ =>
    if ip.isEmpty then none else pyFloatExp sgn (digitsToNat ip) [] l1

/-- Model of Python `float(s)` on a string: strip whitespace, optional
sign, then a float literal covering the whole remainder.  (`inf`/`nan`
spellings and digit-group underscores are not modelled; no claim
involves them.) -/
def pyFloatOfString (s : String) : Option PyFloat :=
  let l := (s.data.dropWhile isReWs).reverse.dropWhile isReWs |>.reverse
  match l with
  | '+' :: r => pyFloatBody 1 r
  | '-' :: r => pyFloatBody (-1) r
  | _ => pyFloatBody 1 l

/-- Model of Python `float(x)` on a parsed JSON value: a float passes
through; an integer converts unless its magnitude reaches the float
range, where `float()` raises `OverflowError` (uncaught by the
loops' `except` clause); booleans become 0 or 1; numeric strings are
converted (`ValueError` otherwise, and never `OverflowError` — string
conversion saturates to `inf` instead); other types raise
`TypeError`. -/
def pyFloat : Json → Except PyErr PyFloat
| .num (.float x) => .ok x
| .num (.int n) =>
  if intOverflows n then .error .overflowError else .ok ⟨n, 0⟩
| .bool b => .ok ⟨if b then 1 else 0, 0⟩
| .str s =>
  match pyFloatOfString s with
  | some q => .ok q
  | none => .error .valueError
| .null => .error .typeError
| .arr _ => .error .typeError
| .obj _ => .error .typeError

/-- Body of the `try` block of the point loop:
`x, y = item["point_2d"]; [float(x), float(y)]`. -/
def pointTry (item : Json) : Except PyErr (List PyFloat) := do
  let v ← pySubscript item "point_2d"
  let p ← unpack2 v
  let x ← pyFloat p.1
  let y ← pyFloat p.2
  return [x, y]

/-- Conversion of each element with `float` in order, stopping at the
first failure:
the unpacking of `map(float, coords)`. -/
def floatList : List Json → Except PyErr (List PyFloat)
| [] => .ok []
| x :: rest => do
  let v ← pyFloat x
  let vs ← floatList rest
  return (v :: vs)

/-- Body of the `try` block of the bbox loop: subscript, length
check (`continue` on arity other than 4, modelled as `none`), then
`map(float, coords)` unpacked into four values. -/
def bboxTry (item : Json) : Except PyErr (Option (List PyFloat)) := do
  let coords ← pySubscript item "bbox_2d"
  let n ← pyLen coords
  if n ≠ 4 then
    return none
  else
    let elems ← pyIterate coords
    let fs ← floatList elems
    return (some fs)

/-- The label of an accepted record: the explicit `label` field if
present (stringified), else the synthesized `pre<count>` where
`count` is the length of the output list after the append. -/
def recLabel (pre : String) (item : Json) (count : Nat) : String :=
  match pyDictGet item "label" with
  | some v => pyStr v
  | none => pre ++ toString count

/-- The `for item in data` loop of `decode_json_points`: a membership
test outside the `try` block (whose `TypeError` escapes), then the
`try` body with `TypeError`/`ValueError` turned into a skip. -/
def pointsLoop : List Json → List (List PyFloat) → List String →
    Except PyErr (List (List PyFloat) × List String)
| [], ps, ls => .ok (ps, ls)
| item :: rest, ps, ls =>
  match pyContains "point_2d" item with
  | .error e => .error e
  | .ok false => pointsLoop rest ps ls
  | .ok true =>
    match pointTry item with
    | .error e => if caughtErr e then pointsLoop rest ps ls else .error e
    | .ok coords =>
      pointsLoop rest (ps ++ [coords])
        (ls ++ [recLabel "point_" item (ps.length + 1)])

/-- The `for item in data` loop of `decode_json_bboxes`. -/
def bboxesLoop : List Json → List (List PyFloat) → List String →
    Except PyErr (List (List PyFloat) × List String)
| [], bs, ls => .ok (bs, ls)
| item :: rest, bs, ls =>
  match pyContains "bbox_2d" item with
  | .error e => .error e
  | .ok false => bboxesLoop rest bs ls
  | .ok true =>
    match bboxTry item with
    | .error e => if caughtErr e then bboxesLoop rest bs ls else .error e
    | .ok none => bboxesLoop rest bs ls
    | .ok (some coords) =>
      bboxesLoop rest (bs ++ [coords])
        (ls ++ [recLabel "bbox_" item (bs.length + 1)])

/-- Model of `decode_json_points` of `src/utils.py`.  The result is
`.error e` exactly when the Python function lets exception `e` escape
to its caller. -/
def decode_json_points (text : String) :
    Except PyErr (List (List PyFloat) × List String) :=
  match safe_json_load text with
  | none => .ok ([], [])
  | some data =>
    if pyTruthy data then
      match pyToItems data with
      | .error e => .error e
      | .ok items => pointsLoop items [] []
    else .ok ([], [])

/-- Model of `decode_json_bboxes` of `src/utils.py`. -/
def decode_json_bboxes (text : String) :
    Except PyErr (List (List PyFloat) × List String) :=
  match safe_json_load text with
  | none => .ok ([], [])
  | some data =>
    if pyTruthy data then
      match pyToItems data with
      | .error e => .error e
      | .ok items => bboxesLoop items [] []
    else .ok ([], [])

/-- Outcome of one point-loop iteration, for stating the loop's
characterization: uncaught exception, skip, or an accepted record
(coordinates together with the explicit label field, if any). -/
def pointEval (item : Json) : Except PyErr (Option (List PyFloat × Option Json)) :=
  match pyContains "point_2d" item with
  | .error e => .error e
  | .ok false => .ok none
  | .ok true =>
    match pointTry item with
    | .error e => if caughtErr e then .ok none else .error e
    | .ok coords => .ok (some (coords, pyDictGet item "label"))

/-- Outcome of one bbox-loop iteration. -/
def bboxEval (item : Json) : Except PyErr (Option (List PyFloat × Option Json)) :=
  match pyContains "bbox_2d" item with
  | .error e => .error e
  | .ok false => .ok none
  | .ok true =>
    match bboxTry item with
    | .error e => if caughtErr e then .ok none else .error e
    | .ok none => .ok none
    | .ok (some coords) => .ok (some (coords, pyDictGet item "label"))

/-- The accepted records of a payload list, in input order, or the
first uncaught exception. -/
def pointRecs : List Json → Except PyErr (List (List PyFloat × Option Json))
| [] => .ok []
| item :: rest =>
  match pointEval item with
  | .error e => .error e
  | .ok none => pointRecs rest
  | .ok (some r) =>
    match pointRecs rest with
    | .error e => .error e
    | .ok recs => .ok (r :: recs)

/-- The accepted bbox records of a payload list, in input order. -/
def bboxRecs : List Json → Except PyErr (List (List PyFloat × Option Json))
| [] => .ok []
| item :: rest =>
  match bboxEval item with
  | .error e => .error e
  | .ok none => bboxRecs rest
  | .ok (some r) =>
    match bboxRecs rest with
    | .error e => .error e
    | .ok recs => .ok (r :: recs)

/-- The label column of a record list, when the records before it
already number `n`: an explicit label field is stringified, a missing
one synthesizes `pre<position>` with the record's 1-based position in
the output. -/
def mkLabels (pre : String) : Nat → List (List PyFloat × Option Json) → List String
| _, [] => []
| n, (_, some v) :: rest => pyStr v :: mkLabels pre (n + 1) rest
| n, (_, none) :: rest => (pre ++ toString (n + 1)) :: mkLabels pre (n + 1) rest

/-- Assemble a loop result from accumulators and the record list. -/
def recsToResult (pre : String) (ps : List (List PyFloat)) (ls : List String) :
    Except PyErr (List (List PyFloat × Option Json)) →
    Except PyErr (List (List PyFloat) × List String)
| .error e => .error e
| .ok recs => .ok (ps ++ recs.map Prod.fst, ls ++ mkLabels pre ps.length recs)

/-- The coordinates the point loop accepts from one element, if any. -/
def acceptedPointCoords (item : Json) : Option (List PyFloat) :=
  match pointEval item with
  | .ok (some r) => some r.1
  | _ => none

/-- The coordinates the bbox loop accepts from one element, if any. -/
def acceptedBboxCoords (item : Json) : Option (List PyFloat) :=
  match bboxEval item with
  | .ok (some r) => some r.1
  | _ => none

/-- Does the value support Python's `in` test with a string key
(mapping, string or list)?  Scalars raise `TypeError` there, outside
the `try` block. -/
def memTestableB : Json → Bool
| .obj _ => true
| .str _ => true
| .arr _ => true
| .num _ => false
| .bool _ => false
| .null => false

/-- Payload shapes on which the extraction loops cannot raise: no
payload, a falsy payload, a mapping, a string, or a list whose
elements all support the membership test. -/
def safePayloadB : Option Json → Bool
| none => true
| some d =>
  !pyTruthy d ||
    (match d with
     | .obj _ => true
     | .str _ => true
     | .arr xs => xs.all memTestableB
     | _ => false)

/-- Modelled from the claim's words for C4 (not from the code): a
well-formed point element is a mapping whose `point_2d` holds exactly
two numeric values. -/
def wellFormedPointC4 (item : Json) : Option (List PyNum) :=
  match item with
  | .obj kvs =>
    match (kvs.find? (fun p => p.1 == "point_2d")).map Prod.snd with
    | some (.arr [.num a, .num b]) => some [a, b]
    | _ => none
  | _ => none

/-- Does the list contain a comma followed by a whitespace run and the
closing character (the trailing-comma regex has a match)? -/
def hasCommaClose (close : Char) : List Char → Bool
| [] => false
| c :: rest => (c = ',' && wsCloseAt close rest) || hasCommaClose close rest

mutual

/-- Does the value contain no integer of overflowing magnitude?  On
such values `float()` cannot raise `OverflowError` anywhere the
extraction loops apply it. -/
def jsonNoOverflow : Json → Bool
| .null => true
| .bool _ => true
| .str _ => true
| .num (.int n) => !intOverflows n
| .num (.float _) => true
| .arr xs => listNoOverflow xs
| .obj kvs => pairsNoOverflow kvs

/-- The overflow check on each element of a list. -/
def listNoOverflow : List Json → Bool
| [] => true
| j :: rest => jsonNoOverflow j && listNoOverflow rest

/-- The overflow check on each value of a mapping. -/
def pairsNoOverflow : List (String × Json) → Bool
| [] => true
| (_, v) :: rest => jsonNoOverflow v && pairsNoOverflow rest

end

/-- The overflow check on a whole normalized payload. -/
def payloadNoOverflowB : Option Json → Bool
| none => true
| some d => jsonNoOverflow d

/-- A 310-digit decimal integer literal, above the float range. -/
def hugeIntLiteral : String := "1" ++ String.mk (List.replicate 309 '0')

/-- A valid JSON list of one mapping whose first coordinate is an
integer too large for `float()`. -/
def hugePointText : String :=
  "[\x7b\"point_2d\": [" ++ hugeIntLiteral ++ ", 2]\x7d]"

-- Helper lemmas (shared between several claims).

/-- One label is produced per accepted record. -/
theorem mkLabels_length (pre : String) :
    ∀ (n : Nat) (recs : List (List PyFloat × Option Json)),
    (mkLabels pre n recs).length = recs.length := by
  intro n recs
  induction recs generalizing n with
  | nil => simp [mkLabels]
  | cons r rest ih =>
    obtain ⟨c, lbl⟩ := r
    cases lbl with
    | none => simp [mkLabels, ih]
    | some v => simp [mkLabels, ih]

/-- The point loop is the fold described by `pointRecs` and
`mkLabels`: the accumulators are extended by the accepted coordinates
and by labels counted from the number of records already
accumulated. -/
theorem pointsLoop_eq :
    ∀ (items : List Json) (ps : List (List PyFloat)) (ls : List String),
    pointsLoop items ps ls = recsToResult "point_" ps ls (pointRecs items) := by
  intro items
  induction items with
  | nil =>
    intro ps ls
    simp [pointsLoop, pointRecs, recsToResult, mkLabels]
  | cons item rest ih =>
    intro ps ls
    simp only [pointsLoop, pointRecs, pointEval]
    cases h1 : pyContains "point_2d" item with
    | error e => simp [recsToResult]
    | ok b =>
      cases b with
      | false => simp [ih]
      | true =>
        cases h2 : pointTry item with
        | error e =>
          cases hc : caughtErr e with
          | true => simp [hc, ih]
          | false => simp [hc, recsToResult]
        | ok coords =>
          simp only [ih]
          cases h3 : pointRecs rest with
          | error e => simp [recsToResult]
          | ok recs =>
            simp only [recsToResult, recLabel]
            cases h4 : pyDictGet item "label" with
            | none => simp [mkLabels, List.append_assoc]
            | some v => simp [mkLabels, List.append_assoc]

/-- The bbox loop is the analogous fold. -/
theorem bboxesLoop_eq :
    ∀ (items : List Json) (bs : List (List PyFloat)) (ls : List String),
    bboxesLoop items bs ls = recsToResult "bbox_" bs ls (bboxRecs items) := by
  intro items
  induction items with
  | nil =>
    intro bs ls
    simp [bboxesLoop, bboxRecs, recsToResult, mkLabels]
  | cons item rest ih =>
    intro bs ls
    simp only [bboxesLoop, bboxRecs, bboxEval]
    cases h1 : pyContains "bbox_2d" item with
    | error e => simp [recsToResult]
    | ok b =>
      cases b with
      | false => simp [ih]
      | true =>
        cases h2 : bboxTry item with
        | error e =>
          cases hc : caughtErr e with
          | true => simp [hc, ih]
          | false => simp [hc, recsToResult]
        | ok c? =>
          cases c? with
          | none => simp [ih]
          | some coords =>
            simp only [ih]
            cases h3 : bboxRecs rest with
            | error e => simp [recsToResult]
            | ok recs =>
              simp only [recsToResult, recLabel]
              cases h4 : pyDictGet item "label" with
              | none => simp [mkLabels, List.append_assoc]
              | some v => simp [mkLabels, List.append_assoc]

/-- Lengths of a loop run started from empty accumulators agree. -/
theorem pointsLoop_lengths (items : List Json) (ps : List (List PyFloat))
    (ls : List String) (h : pointsLoop items [] [] = .ok (ps, ls)) :
    ps.length = ls.length := by
  rw [pointsLoop_eq] at h
  cases h3 : pointRecs items with
  | error e => rw [h3] at h; simp [recsToResult] at h
  | ok recs =>
    rw [h3] at h
    simp only [recsToResult, List.nil_append, Except.ok.injEq, Prod.mk.injEq] at h
    obtain ⟨hp, hl⟩ := h
    rw [← hp, ← hl]
    simp [mkLabels_length]

/-- Lengths of a bbox loop run agree. -/
theorem bboxesLoop_lengths (items : List Json) (bs : List (List PyFloat))
    (ls : List String) (h : bboxesLoop items [] [] = .ok (bs, ls)) :
    bs.length = ls.length := by
  rw [bboxesLoop_eq] at h
  cases h3 : bboxRecs items with
  | error e => rw [h3] at h; simp [recsToResult] at h
  | ok recs =>
    rw [h3] at h
    simp only [recsToResult, List.nil_append, Except.ok.injEq, Prod.mk.injEq] at h
    obtain ⟨hp, hl⟩ := h
    rw [← hp, ← hl]
    simp [mkLabels_length]

/-- Position of a synthesized label: the record at index `k` of the
record list, when it has no explicit label, is labelled with the
1-based position `n + k + 1`. -/
theorem mkLabels_getElem (pre : String) :
    ∀ (recs : List (List PyFloat × Option Json)) (n k : Nat)
      (r : List PyFloat × Option Json),
    recs[k]? = some r → r.2 = none →
    (mkLabels pre n recs)[k]? = some (pre ++ toString (n + k + 1)) := by
  intro recs
  induction recs with
  | nil => intro n k r h; simp at h
  | cons hd tl ih =>
    intro n k r hk hnone
    cases k with
    | zero =>
      simp only [List.getElem?_cons_zero, Option.some.injEq] at hk
      subst hk
      obtain ⟨c, lbl⟩ := hd
      cases lbl with
      | none => simp [mkLabels]
      | some v => simp at hnone
    | succ k =>
      simp only [List.getElem?_cons_succ] at hk
      have := ih (n + 1) k r hk hnone
      obtain ⟨c, lbl⟩ := hd
      have harith : n + 1 + k + 1 = n + (k + 1) + 1 := by omega
      cases lbl with
      | none =>
        simp only [mkLabels, List.getElem?_cons_succ]
        rw [this, harith]
      | some v =>
        simp only [mkLabels, List.getElem?_cons_succ]
        rw [this, harith]

/-- The accepted coordinates are exactly the per-element accepted
values, in input order. -/
theorem pointRecs_map_fst :
    ∀ (items : List Json) (recs : List (List PyFloat × Option Json)),
    pointRecs items = .ok recs →
    recs.map Prod.fst = items.filterMap acceptedPointCoords := by
  intro items
  induction items with
  | nil => intro recs h; simp [pointRecs] at h; simp [← h]
  | cons item rest ih =>
    intro recs h
    simp only [pointRecs] at h
    cases he : pointEval item with
    | error e => rw [he] at h; simp at h
    | ok r? =>
      rw [he] at h
      cases r? with
      | none =>
        simp only at h
        rw [List.filterMap_cons]
        have : acceptedPointCoords item = none := by
          simp [acceptedPointCoords, he]
        rw [this]
        exact ih recs h
      | some r =>
        simp only at h
        cases h3 : pointRecs rest with
        | error e => rw [h3] at h; simp at h
        | ok recs' =>
          rw [h3] at h
          simp only [Except.ok.injEq] at h
          subst h
          rw [List.filterMap_cons]
          have : acceptedPointCoords item = some r.1 := by
            simp [acceptedPointCoords, he]
          rw [this]
          simp [ih recs' h3]

/-- The accepted bbox coordinates are exactly the per-element accepted
values, in input order. -/
theorem bboxRecs_map_fst :
    ∀ (items : List Json) (recs : List (List PyFloat × Option Json)),
    bboxRecs items = .ok recs →
    recs.map Prod.fst = items.filterMap acceptedBboxCoords := by
  intro items
  induction items with
  | nil => intro recs h; simp [bboxRecs] at h; simp [← h]
  | cons item rest ih =>
    intro recs h
    simp only [bboxRecs] at h
    cases he : bboxEval item with
    | error e => rw [he] at h; simp at h
    | ok r? =>
      rw [he] at h
      cases r? with
      | none =>
        simp only at h
        rw [List.filterMap_cons]
        have : acceptedBboxCoords item = none := by
          simp [acceptedBboxCoords, he]
        rw [this]
        exact ih recs h
      | some r =>
        simp only at h
        cases h3 : bboxRecs rest with
        | error e => rw [h3] at h; simp at h
        | ok recs' =>
          rw [h3] at h
          simp only [Except.ok.injEq] at h
          subst h
          rw [List.filterMap_cons]
          have : acceptedBboxCoords item = some r.1 := by
            simp [acceptedBboxCoords, he]
          rw [this]
          simp [ih recs' h3]

/-- Python `float()` never raises `KeyError`. -/
theorem pyFloat_ne_keyError (j : Json) : pyFloat j ≠ .error .keyError := by
  cases j with
  | str s => cases h : pyFloatOfString s <;> simp [pyFloat, h]
  | num q =>
    cases q with
    | float x => simp [pyFloat]
    | int n =>
      by_cases h : intOverflows n = true <;> simp [pyFloat, h]
  | _ => simp [pyFloat]

/-- Tuple unpacking never raises `KeyError`. -/
theorem unpack2_ne_keyError (j : Json) : unpack2 j ≠ .error .keyError := by
  unfold unpack2
  split
  all_goals try simp
  split <;> simp

/-- Python `len()` never raises `KeyError`. -/
theorem pyLen_ne_keyError (j : Json) : pyLen j ≠ .error .keyError := by
  cases j <;> simp [pyLen]

/-- Iteration never raises `KeyError`. -/
theorem pyIterate_ne_keyError (j : Json) : pyIterate j ≠ .error .keyError := by
  cases j <;> simp [pyIterate]

/-- Converting a list of values never raises `KeyError`. -/
theorem floatList_ne_keyError :
    ∀ elems : List Json, floatList elems ≠ .error .keyError := by
  intro elems
  induction elems with
  | nil => simp [floatList]
  | cons x rest ih =>
    intro hcon
    simp only [floatList, bind, Except.bind] at hcon
    cases hx : pyFloat x with
    | error e =>
      rw [hx] at hcon
      simp only [Except.error.injEq] at hcon
      exact pyFloat_ne_keyError x (by rw [hx, hcon])
    | ok v =>
      rw [hx] at hcon
      simp only at hcon
      cases hr : floatList rest with
      | error e =>
        rw [hr] at hcon
        simp only [Except.error.injEq] at hcon
        exact ih (by rw [hr, hcon])
      | ok vs =>
        rw [hr] at hcon
        simp [pure, Except.pure] at hcon

/-- A membership test that succeeded on a mapping guarantees the
subscript succeeds (no `KeyError` in the loops). -/
theorem pySubscript_of_contains (kvs : List (String × Json)) (key : String)
    (h : pyContains key (Json.obj kvs) = .ok true) :
    ∃ v, pySubscript (Json.obj kvs) key = .ok v := by
  simp only [pyContains, Except.ok.injEq] at h
  have hs : (kvs.find? (fun p => p.1 == key)).isSome := by
    rw [List.find?_isSome]
    exact (List.any_eq_true).mp h
  cases hf : kvs.find? (fun p => p.1 == key) with
  | none => rw [hf] at hs; simp at hs
  | some q => exact ⟨q.2, by simp [pySubscript, hf]⟩

/-- On an element that admits the membership test, the point `try`
body can only raise `TypeError` or `ValueError`, both caught. -/
theorem pointTry_ne_keyError (item : Json) (hm : memTestableB item = true)
    (hc : pyContains "point_2d" item = .ok true) :
    pointTry item ≠ .error .keyError := by
  cases item with
  | str s => simp [pointTry, pySubscript, bind, Except.bind]
  | arr xs => simp [pointTry, pySubscript, bind, Except.bind]
  | obj kvs =>
    obtain ⟨v, hv⟩ := pySubscript_of_contains kvs _ hc
    intro hcon
    simp only [pointTry, bind, Except.bind, hv] at hcon
    cases hu : unpack2 v with
    | error e =>
      rw [hu] at hcon
      simp only [Except.error.injEq] at hcon
      exact unpack2_ne_keyError v (by rw [hu, hcon])
    | ok p =>
      rw [hu] at hcon
      simp only at hcon
      cases hx : pyFloat p.1 with
      | error e =>
        rw [hx] at hcon
        simp only [Except.error.injEq] at hcon
        exact pyFloat_ne_keyError p.1 (by rw [hx, hcon])
      | ok x =>
        rw [hx] at hcon
        simp only at hcon
        cases hy : pyFloat p.2 with
        | error e =>
          rw [hy] at hcon
          simp only [Except.error.injEq] at hcon
          exact pyFloat_ne_keyError p.2 (by rw [hy, hcon])
        | ok y =>
          rw [hy] at hcon
          simp [pure, Except.pure] at hcon
  | _ => simp [memTestableB] at hm

/-- On an element that admits the membership test, the bbox `try`
body can only raise `TypeError` or `ValueError`. -/
theorem bboxTry_ne_keyError (item : Json) (hm : memTestableB item = true)
    (hc : pyContains "bbox_2d" item = .ok true) :
    bboxTry item ≠ .error .keyError := by
  cases item with
  | str s => simp [bboxTry, pySubscript, bind, Except.bind]
  | arr xs => simp [bboxTry, pySubscript, bind, Except.bind]
  | obj kvs =>
    obtain ⟨v, hv⟩ := pySubscript_of_contains kvs _ hc
    intro hcon
    simp only [bboxTry, bind, Except.bind, hv] at hcon
    cases hn : pyLen v with
    | error e =>
      rw [hn] at hcon
      simp only [Except.error.injEq] at hcon
      exact pyLen_ne_keyError v (by rw [hn, hcon])
    | ok n =>
      rw [hn] at hcon
      simp only at hcon
      by_cases h4 : n = 4
      · subst h4
        rw [if_neg (by simp : ¬ (4 : Nat) ≠ 4)] at hcon
        cases hi : pyIterate v with
        | error e =>
          rw [hi] at hcon
          simp only [Except.error.injEq] at hcon
          exact pyIterate_ne_keyError v (by rw [hi, hcon])
        | ok elems =>
          rw [hi] at hcon
          simp only at hcon
          cases hfl : floatList elems with
          | error e =>
            rw [hfl] at hcon
            simp only [Except.error.injEq] at hcon
            exact floatList_ne_keyError elems (by rw [hfl, hcon])
          | ok fs =>
            rw [hfl] at hcon
            simp [pure, Except.pure] at hcon
      · rw [if_pos h4] at hcon
        simp [pure, Except.pure] at hcon
  | _ => simp [memTestableB] at hm

/-- An exception other than `KeyError` and `OverflowError` is caught
by the loops' `except` clause. -/
theorem caughtErr_of_ne (e : PyErr) (h : e ≠ .keyError)
    (h2 : e ≠ .overflowError) : caughtErr e = true := by
  cases e <;> simp [caughtErr] at h h2 ⊢

/-- Every element of an overflow-free list is overflow-free. -/
theorem listNoOverflow_mem :
    ∀ (xs : List Json), listNoOverflow xs = true →
    ∀ j ∈ xs, jsonNoOverflow j = true := by
  intro xs
  induction xs with
  | nil => intro _ j hj; simp at hj
  | cons x rest ih =>
    intro h j hj
    simp only [listNoOverflow, Bool.and_eq_true] at h
    cases hj with
    | head => exact h.1
    | tail _ hmem => exact ih h.2 j hmem

/-- Every value of an overflow-free mapping is overflow-free. -/
theorem pairsNoOverflow_mem :
    ∀ (kvs : List (String × Json)), pairsNoOverflow kvs = true →
    ∀ p ∈ kvs, jsonNoOverflow p.2 = true := by
  intro kvs
  induction kvs with
  | nil => intro _ p hp; simp at hp
  | cons q rest ih =>
    intro h p hp
    obtain ⟨k, v⟩ := q
    simp only [pairsNoOverflow, Bool.and_eq_true] at h
    cases hp with
    | head => exact h.1
    | tail _ hmem => exact ih h.2 p hmem

/-- Python `float()` of an overflow-free value never raises
`OverflowError` (numeric strings saturate instead of raising). -/
theorem pyFloat_no_ovf (j : Json) (h : jsonNoOverflow j = true) :
    pyFloat j ≠ .error .overflowError := by
  cases j with
  | str s => cases hs : pyFloatOfString s <;> simp [pyFloat, hs]
  | num q =>
    cases q with
    | float x => simp [pyFloat]
    | int n =>
      simp only [jsonNoOverflow, Bool.not_eq_eq_eq_not, Bool.not_true] at h
      simp [pyFloat, h]
  | _ => simp [pyFloat]

/-- Tuple unpacking never raises `OverflowError`. -/
theorem unpack2_ne_ovf (j : Json) : unpack2 j ≠ .error .overflowError := by
  unfold unpack2
  split
  all_goals try simp
  split <;> simp

/-- Subscripting never raises `OverflowError`. -/
theorem pySubscript_ne_ovf (j : Json) (key : String) :
    pySubscript j key ≠ .error .overflowError := by
  unfold pySubscript
  split
  all_goals try simp
  split <;> simp

/-- Python `len()` never raises `OverflowError`. -/
theorem pyLen_ne_ovf (j : Json) : pyLen j ≠ .error .overflowError := by
  cases j <;> simp [pyLen]

/-- Iteration never raises `OverflowError`. -/
theorem pyIterate_ne_ovf (j : Json) : pyIterate j ≠ .error .overflowError := by
  cases j <;> simp [pyIterate]

/-- A successful subscript of an overflow-free value yields an
overflow-free value. -/
theorem pySubscript_no_ovf (item : Json) (key : String) (v : Json)
    (h : jsonNoOverflow item = true) (hv : pySubscript item key = .ok v) :
    jsonNoOverflow v = true := by
  cases item with
  | obj kvs =>
    simp only [pySubscript] at hv
    cases hf : kvs.find? (fun p => p.1 == key) with
    | none => rw [hf] at hv; simp at hv
    | some p =>
      rw [hf] at hv
      simp only [Except.ok.injEq] at hv
      have hmem : p ∈ kvs := List.mem_of_find?_eq_some hf
      have := pairsNoOverflow_mem kvs (by simpa [jsonNoOverflow] using h) p hmem
      rw [← hv]
      exact this
  | _ => simp [pySubscript] at hv

/-- Successful unpacking of an overflow-free value yields two
overflow-free components. -/
theorem unpack2_no_ovf (v : Json) (a b : Json)
    (h : jsonNoOverflow v = true) (hu : unpack2 v = .ok (a, b)) :
    jsonNoOverflow a = true ∧ jsonNoOverflow b = true := by
  cases v with
  | arr xs =>
    match xs, hu with
    | [x, y], hu =>
      simp only [unpack2, Except.ok.injEq, Prod.mk.injEq] at hu
      obtain ⟨ha, hb⟩ := hu
      simp only [jsonNoOverflow, listNoOverflow, Bool.and_eq_true] at h
      exact ⟨ha ▸ h.1, hb ▸ h.2.1⟩
  | str s =>
    simp only [unpack2] at hu
    cases hs : s.data with
    | nil => rw [hs] at hu; simp at hu
    | cons c1 t =>
      cases t with
      | nil => rw [hs] at hu; simp at hu
      | cons c2 t2 =>
        cases t2 with
        | nil =>
          rw [hs] at hu
          simp only [Except.ok.injEq, Prod.mk.injEq] at hu
          obtain ⟨ha, hb⟩ := hu
          rw [← ha, ← hb]
          exact ⟨rfl, rfl⟩
        | cons c3 t3 => rw [hs] at hu; simp at hu
  | obj kvs =>
    match kvs, hu with
    | [(k1, v1), (k2, v2)], hu =>
      simp only [unpack2, Except.ok.injEq, Prod.mk.injEq] at hu
      obtain ⟨ha, hb⟩ := hu
      rw [← ha, ← hb]
      exact ⟨rfl, rfl⟩
  | _ => simp [unpack2] at hu

/-- Successful iteration of an overflow-free value yields overflow-free
elements. -/
theorem pyIterate_no_ovf (v : Json) (elems : List Json)
    (h : jsonNoOverflow v = true) (hi : pyIterate v = .ok elems) :
    ∀ x ∈ elems, jsonNoOverflow x = true := by
  cases v with
  | arr xs =>
    simp only [pyIterate, Except.ok.injEq] at hi
    rw [← hi]
    exact listNoOverflow_mem xs (by simpa [jsonNoOverflow] using h)
  | str s =>
    simp only [pyIterate, Except.ok.injEq] at hi
    intro x hx
    rw [← hi] at hx
    simp only [List.mem_map] at hx
    obtain ⟨c, _, hc⟩ := hx
    rw [← hc]
    rfl
  | obj kvs =>
    simp only [pyIterate, Except.ok.injEq] at hi
    intro x hx
    rw [← hi] at hx
    simp only [List.mem_map] at hx
    obtain ⟨p, _, hp⟩ := hx
    rw [← hp]
    rfl
  | _ => simp [pyIterate] at hi

/-- Converting an overflow-free element list never raises
`OverflowError`. -/
theorem floatList_no_ovf :
    ∀ elems : List Json, (∀ x ∈ elems, jsonNoOverflow x = true) →
    floatList elems ≠ .error .overflowError := by
  intro elems
  induction elems with
  | nil => intro _; simp [floatList]
  | cons x rest ih =>
    intro h hcon
    simp only [floatList, bind, Except.bind] at hcon
    cases hx : pyFloat x with
    | error e =>
      rw [hx] at hcon
      simp only [Except.error.injEq] at hcon
      exact pyFloat_no_ovf x (h x (by simp)) (by rw [hx, hcon])
    | ok v =>
      rw [hx] at hcon
      simp only at hcon
      cases hr : floatList rest with
      | error e =>
        rw [hr] at hcon
        simp only [Except.error.injEq] at hcon
        exact ih (fun y hy => h y (by simp [hy])) (by rw [hr, hcon])
      | ok vs =>
        rw [hr] at hcon
        simp [pure, Except.pure] at hcon

/-- On an overflow-free element the point `try` body never raises
`OverflowError`. -/
theorem pointTry_no_ovf (item : Json) (h : jsonNoOverflow item = true) :
    pointTry item ≠ .error .overflowError := by
  intro hcon
  simp only [pointTry, bind, Except.bind] at hcon
  cases hv : pySubscript item "point_2d" with
  | error e =>
    rw [hv] at hcon
    simp only [Except.error.injEq] at hcon
    exact pySubscript_ne_ovf item "point_2d" (by rw [hv, hcon])
  | ok v =>
    rw [hv] at hcon
    simp only at hcon
    have hvno : jsonNoOverflow v = true := pySubscript_no_ovf item _ v h hv
    cases hu : unpack2 v with
    | error e =>
      rw [hu] at hcon
      simp only [Except.error.injEq] at hcon
      exact unpack2_ne_ovf v (by rw [hu, hcon])
    | ok p =>
      rw [hu] at hcon
      simp only at hcon
      obtain ⟨ha, hb⟩ := unpack2_no_ovf v p.1 p.2 hvno (by rw [hu])
      cases hx : pyFloat p.1 with
      | error e =>
        rw [hx] at hcon
        simp only [Except.error.injEq] at hcon
        exact pyFloat_no_ovf p.1 ha (by rw [hx, hcon])
      | ok x =>
        rw [hx] at hcon
        simp only at hcon
        cases hy : pyFloat p.2 with
        | error e =>
          rw [hy] at hcon
          simp only [Except.error.injEq] at hcon
          exact pyFloat_no_ovf p.2 hb (by rw [hy, hcon])
        | ok y =>
          rw [hy] at hcon
          simp [pure, Except.pure] at hcon

/-- On an overflow-free element the bbox `try` body never raises
`OverflowError`. -/
theorem bboxTry_no_ovf (item : Json) (h : jsonNoOverflow item = true) :
    bboxTry item ≠ .error .overflowError := by
  intro hcon
  simp only [bboxTry, bind, Except.bind] at hcon
  cases hv : pySubscript item "bbox_2d" with
  | error e =>
    rw [hv] at hcon
    simp only [Except.error.injEq] at hcon
    exact pySubscript_ne_ovf item "bbox_2d" (by rw [hv, hcon])
  | ok v =>
    rw [hv] at hcon
    simp only at hcon
    have hvno : jsonNoOverflow v = true := pySubscript_no_ovf item _ v h hv
    cases hn : pyLen v with
    | error e =>
      rw [hn] at hcon
      simp only [Except.error.injEq] at hcon
      exact pyLen_ne_ovf v (by rw [hn, hcon])
    | ok n =>
      rw [hn] at hcon
      simp only at hcon
      by_cases h4 : n = 4
      · subst h4
        rw [if_neg (by simp : ¬ (4 : Nat) ≠ 4)] at hcon
        cases hi : pyIterate v with
        | error e =>
          rw [hi] at hcon
          simp only [Except.error.injEq] at hcon
          exact pyIterate_ne_ovf v (by rw [hi, hcon])
        | ok elems =>
          rw [hi] at hcon
          simp only at hcon
          cases hfl : floatList elems with
          | error e =>
            rw [hfl] at hcon
            simp only [Except.error.injEq] at hcon
            exact floatList_no_ovf elems (pyIterate_no_ovf v elems hvno hi)
              (by rw [hfl, hcon])
          | ok fs =>
            rw [hfl] at hcon
            simp [pure, Except.pure] at hcon
      · rw [if_pos h4] at hcon
        simp [pure, Except.pure] at hcon

/-- A membership test on a testable value returns a Boolean. -/
theorem pyContains_ok (key : String) (j : Json) (hm : memTestableB j = true) :
    ∃ b, pyContains key j = .ok b := by
  cases j <;> simp [memTestableB] at hm <;> simp [pyContains]

/-- The point loop cannot raise on a list of testable, overflow-free
elements. -/
theorem pointRecs_ok (items : List Json)
    (h : ∀ i ∈ items, memTestableB i = true)
    (hov : ∀ i ∈ items, jsonNoOverflow i = true) :
    ∃ recs, pointRecs items = .ok recs := by
  induction items with
  | nil => exact ⟨[], rfl⟩
  | cons item rest ih =>
    have hm : memTestableB item = true := h item (by simp)
    have hmo : jsonNoOverflow item = true := hov item (by simp)
    have hrest : ∀ i ∈ rest, memTestableB i = true :=
      fun i hi => h i (by simp [hi])
    have hresto : ∀ i ∈ rest, jsonNoOverflow i = true :=
      fun i hi => hov i (by simp [hi])
    obtain ⟨recs, hrecs⟩ := ih hrest hresto
    obtain ⟨b, hb⟩ := pyContains_ok "point_2d" item hm
    cases b with
    | false => exact ⟨recs, by simp [pointRecs, pointEval, hb, hrecs]⟩
    | true =>
      cases ht : pointTry item with
      | error e =>
        have hne : e ≠ .keyError := by
          intro hcon
          exact pointTry_ne_keyError item hm hb (by rw [ht, hcon])
        have hno : e ≠ .overflowError := by
          intro hcon
          exact pointTry_no_ovf item hmo (by rw [ht, hcon])
        exact ⟨recs, by
          simp [pointRecs, pointEval, hb, ht, caughtErr_of_ne e hne hno, hrecs]⟩
      | ok coords =>
        exact ⟨(coords, pyDictGet item "label") :: recs, by
          simp [pointRecs, pointEval, hb, ht, hrecs]⟩

/-- The bbox loop cannot raise on a list of testable, overflow-free
elements. -/
theorem bboxRecs_ok (items : List Json)
    (h : ∀ i ∈ items, memTestableB i = true)
    (hov : ∀ i ∈ items, jsonNoOverflow i = true) :
    ∃ recs, bboxRecs items = .ok recs := by
  induction items with
  | nil => exact ⟨[], rfl⟩
  | cons item rest ih =>
    have hm : memTestableB item = true := h item (by simp)
    have hmo : jsonNoOverflow item = true := hov item (by simp)
    have hrest : ∀ i ∈ rest, memTestableB i = true :=
      fun i hi => h i (by simp [hi])
    have hresto : ∀ i ∈ rest, jsonNoOverflow i = true :=
      fun i hi => hov i (by simp [hi])
    obtain ⟨recs, hrecs⟩ := ih hrest hresto
    obtain ⟨b, hb⟩ := pyContains_ok "bbox_2d" item hm
    cases b with
    | false => exact ⟨recs, by simp [bboxRecs, bboxEval, hb, hrecs]⟩
    | true =>
      cases ht : bboxTry item with
      | error e =>
        have hne : e ≠ .keyError := by
          intro hcon
          exact bboxTry_ne_keyError item hm hb (by rw [ht, hcon])
        have hno : e ≠ .overflowError := by
          intro hcon
          exact bboxTry_no_ovf item hmo (by rw [ht, hcon])
        exact ⟨recs, by
          simp [bboxRecs, bboxEval, hb, ht, caughtErr_of_ne e hne hno, hrecs]⟩
      | ok c? =>
        cases c? with
        | none => exact ⟨recs, by simp [bboxRecs, bboxEval, hb, ht, hrecs]⟩
        | some coords =>
          exact ⟨(coords, pyDictGet item "label") :: recs, by
            simp [bboxRecs, bboxEval, hb, ht, hrecs]⟩

/-- Quote repair is the identity on text without single quotes. -/
theorem quoteFix_id : ∀ l : List Char, squote ∉ l → quoteFix l = l := by
  intro l
  induction l with
  | nil => intro _; rfl
  | cons c rest ih =>
    intro h
    simp only [List.mem_cons, not_or] at h
    obtain ⟨h1, h2⟩ := h
    have hc : ¬ c = squote := fun he => h1 (he ▸ rfl)
    simp [quoteFix, hc, ih h2]

/-- Inside a span whose body has no single quote, the scan copies the
body and closes at the first quote after it. -/
theorem quoteSpan_append :
    ∀ (s post : List Char), squote ∉ s →
    quoteSpan (s ++ squote :: post) = s ++ '"' :: quoteFix post := by
  intro s
  induction s with
  | nil => intro post _; simp [quoteSpan]
  | cons c rest ih =>
    intro post h
    simp only [List.mem_cons, not_or] at h
    obtain ⟨h1, h2⟩ := h
    have hc : ¬ c = squote := fun he => h1 (he ▸ rfl)
    simp [quoteSpan, hc, ih post h2]

/-- The quote-repair transform rewrites a single-quoted span with no
embedded quote to double-quoted form and continues after it, provided
no quote occurs before the span. -/
theorem quoteFix_append :
    ∀ (pre s post : List Char), squote ∉ pre → squote ∉ s →
    quoteFix (pre ++ (squote :: (s ++ (squote :: post)))) =
      pre ++ ('"' :: (s ++ ('"' :: quoteFix post))) := by
  intro pre
  induction pre with
  | nil =>
    intro s post _ hs
    have hmem : (s ++ squote :: post).contains squote = true := by
      simp [List.contains_eq_any_beq]
    simp only [List.nil_append, quoteFix, hmem]
    simp [quoteSpan_append s post hs]
  | cons c rest ih =>
    intro s post h hs
    simp only [List.mem_cons, not_or] at h
    obtain ⟨h1, h2⟩ := h
    have hc : ¬ c = squote := fun he => h1 (he ▸ rfl)
    simp only [List.cons_append, quoteFix, hc]
    simp [ih s post h2 hs]

/-- A `dropWhile` never lengthens a list. -/
theorem dropWhile_length_le (p : Char → Bool) :
    ∀ l : List Char, (l.dropWhile p).length ≤ l.length := by
  intro l
  induction l with
  | nil => simp
  | cons c rest ih =>
    by_cases h : p c
    · simpa [List.dropWhile, h] using Nat.le_succ_of_le ih
    · simp [List.dropWhile, h]

/-- Skipping the whitespace run and the closing character strictly
shrinks a character list that has one more element in front. -/
theorem afterWsClose_length_lt (c : Char) (rest : List Char) :
    (afterWsClose rest).length < (c :: rest).length := by
  have h1 : (rest.dropWhile isReWs).length ≤ rest.length :=
    dropWhile_length_le _ rest
  have h2 : (rest.dropWhile isReWs).tail.length =
      (rest.dropWhile isReWs).length - 1 := List.length_tail _
  simp only [afterWsClose, List.length_cons]
  omega

/-- Any sufficient fuel computes the same substitution. -/
theorem stripCommaF_fuel (close : Char) :
    ∀ (fu : Nat) (l : List Char), l.length ≤ fu →
    stripCommaF close fu l = stripCommaF close l.length l := by
  intro fu
  induction fu using Nat.strong_induction_on with
  | _ fu ih =>
    intro l hl
    cases l with
    | nil => cases fu <;> rfl
    | cons c rest =>
      cases fu with
      | zero => simp at hl
      | succ fu =>
        simp only [List.length_cons] at hl ⊢
        have hr : rest.length ≤ fu := by omega
        have hA : (afterWsClose rest).length ≤ rest.length := by
          have := afterWsClose_length_lt c rest
          simp only [List.length_cons] at this
          omega
        simp only [stripCommaF]
        by_cases hc : (c = ',' && wsCloseAt close rest) = true
        · rw [if_pos hc, if_pos hc]
          rw [ih fu (Nat.lt_succ_self fu) (afterWsClose rest) (le_trans hA hr)]
          rw [ih rest.length (Nat.lt_succ_of_le hr) (afterWsClose rest) hA]
        · rw [if_neg hc, if_neg hc]
          rw [ih fu (Nat.lt_succ_self fu) rest hr]

/-- Comma stripping is the identity on text without a comma-then-close
pattern, whatever the fuel. -/
theorem stripCommaF_id (close : Char) :
    ∀ (fu : Nat) (l : List Char), hasCommaClose close l = false →
    stripCommaF close fu l = l := by
  intro fu
  induction fu with
  | zero => intro l _; cases l <;> rfl
  | succ fu ih =>
    intro l h
    cases l with
    | nil => rfl
    | cons c rest =>
      simp only [hasCommaClose, Bool.or_eq_false_iff] at h
      obtain ⟨h1, h2⟩ := h
      simp [stripCommaF, h1, ih rest h2]

/-- Comma stripping is the identity on text without a comma-then-close
pattern. -/
theorem stripComma_id (close : Char) :
    ∀ l : List Char, hasCommaClose close l = false → stripComma close l = l :=
  fun l h => stripCommaF_id close l.length l h

/-- The fence search fails when the opening marker
does not occur. -/
theorem fenceSearch_none :
    ∀ l : List Char, hasSub fenceTag l = false → fenceSearch l = none := by
  intro l
  induction l with
  | nil => intro _; rfl
  | cons c rest ih =>
    intro h
    simp only [hasSub, Bool.or_eq_false_iff] at h
    obtain ⟨h1, h2⟩ := h
    simp [fenceSearch, h1, ih h2]

/-- Dropping a whitespace run stops at the first non-whitespace
character. -/
theorem dropWhile_ws_append (p : Char → Bool) :
    ∀ (ws : List Char) (x : Char) (rest : List Char),
    (∀ c ∈ ws, p c = true) → p x = false →
    (ws ++ x :: rest).dropWhile p = x :: rest := by
  intro ws
  induction ws with
  | nil => intro x rest _ hx; simp [List.dropWhile, hx]
  | cons c tl ih =>
    intro x rest h hx
    have hc : p c = true := h c (by simp)
    simp only [List.cons_append, List.dropWhile, hc]
    exact ih x rest (fun d hd => h d (by simp [hd])) hx

/-- A comma followed by a whitespace run and the closing character is
replaced by the closing character alone, scanning resuming after it. -/
theorem stripComma_match (close : Char) (hclose : isReWs close = false)
    (ws rest : List Char) (hws : ∀ c ∈ ws, isReWs c = true) :
    stripComma close (',' :: (ws ++ (close :: rest))) =
      close :: stripComma close rest := by
  have hdrop : (ws ++ close :: rest).dropWhile isReWs = close :: rest :=
    dropWhile_ws_append isReWs ws close rest hws hclose
  have hmatch : wsCloseAt close (ws ++ close :: rest) = true := by
    simp [wsCloseAt, hdrop]
  have hafter : afterWsClose (ws ++ close :: rest) = rest := by
    simp [afterWsClose, hdrop]
  have hlen : (',' :: (ws ++ (close :: rest))).length =
      Nat.succ (ws.length + rest.length + 1) := by
    simp [List.length_append]
    omega
  rw [stripComma, hlen]
  rw [stripCommaF]
  simp only [hmatch, hafter]
  rw [if_pos (by simp)]
  have hfuel : rest.length ≤ ws.length + rest.length + 1 := by omega
  rw [stripCommaF_fuel close _ rest hfuel]
  rfl

/-- The decimal literal in `overflowBound` is `2 ^ 1024 - 2 ^ 970`,
the exact threshold of CPython's int-to-float `OverflowError`. -/
theorem overflowBound_eq : overflowBound = 2 ^ 1024 - 2 ^ 970 := by
  norm_num [overflowBound]

-- Claim theorems.

set_option maxRecDepth 100000 in
/-- C1, counterexample: the claim "for every input text string,
`decode_json_points` and `decode_json_bboxes` return normally" is
false, in two independent ways.  On the input `[5]` — a valid JSON
list whose element is a number — the membership test
`"point_2d" in item` sits outside the `try` block and raises
`TypeError` on a non-container element, which escapes to the caller
of both functions.  And on a list of mappings whose coordinate is a
310-digit integer literal, `float()` raises `OverflowError`, which
the `except (TypeError, ValueError)` clause does not catch, so it
too escapes — even though the payload is a list of mappings. -/
theorem claim_C1_cex :
    decode_json_points "[5]" = .error PyErr.typeError ∧
    decode_json_bboxes "[5]" = .error PyErr.typeError ∧
    safePayloadB (safe_json_load hugePointText) = true ∧
    decode_json_points hugePointText = .error PyErr.overflowError :=
  ⟨rfl, rfl, rfl, rfl⟩

/-- C1 (amended): no exception escapes `decode_json_points` or
`decode_json_bboxes` provided the normalized payload (i) is absent,
falsy, a mapping, a string, or a list whose elements all support the
membership test (mappings, strings and lists), and (ii) contains no
integer literal of magnitude at or above the float overflow bound
`2 ^ 1024 - 2 ^ 970`; on such payloads every failure degrades to
skipping the element or returning empty sequences.  (The
counterexamples force both provisos: a truthy numeric or boolean
payload, or a number, boolean or null element of a list payload,
raises an uncaught `TypeError`; a coordinate that is an oversized
integer raises an uncaught `OverflowError`.) -/
theorem claim_C1 (text : String)
    (h : safePayloadB (safe_json_load text) = true)
    (hov : payloadNoOverflowB (safe_json_load text) = true) :
    (decode_json_points text).isOk = true ∧
    (decode_json_bboxes text).isOk = true := by
  cases hd : safe_json_load text with
  | none =>
    constructor <;> simp [decode_json_points, decode_json_bboxes, hd, Except.isOk, Except.toBool]
  | some data =>
    rw [hd] at h
    rw [hd] at hov
    simp only [safePayloadB] at h
    simp only [payloadNoOverflowB] at hov
    cases ht : pyTruthy data with
    | false =>
      constructor <;> simp [decode_json_points, decode_json_bboxes, hd, ht, Except.isOk, Except.toBool]
    | true =>
      rw [ht] at h
      simp only [Bool.not_true, Bool.false_or] at h
      have hitems : ∃ items, pyToItems data = .ok items ∧
          (∀ i ∈ items, memTestableB i = true) ∧
          (∀ i ∈ items, jsonNoOverflow i = true) := by
        cases data with
        | obj kvs =>
          refine ⟨[.obj kvs], rfl, ?_, ?_⟩
          · intro i hi
            simp at hi
            subst hi
            rfl
          · intro i hi
            simp at hi
            subst hi
            exact hov
        | arr xs =>
          refine ⟨xs, rfl, ?_, ?_⟩
          · intro i hi
            simp only at h
            exact (List.all_eq_true.mp h) i hi
          · exact listNoOverflow_mem xs (by simpa [jsonNoOverflow] using hov)
        | str s =>
          refine ⟨s.data.map (fun c => Json.str (String.singleton c)), rfl, ?_, ?_⟩
          all_goals
            intro i hi
            simp only [List.mem_map] at hi
            obtain ⟨c, _, hc⟩ := hi
            rw [← hc]
            rfl
        | num q => simp at h
        | bool b => simp at h
        | null => simp [pyTruthy] at ht
      obtain ⟨items, hit, hmem, hovit⟩ := hitems
      obtain ⟨precs, hprecs⟩ := pointRecs_ok items hmem hovit
      obtain ⟨brecs, hbrecs⟩ := bboxRecs_ok items hmem hovit
      constructor
      · simp [decode_json_points, hd, ht, hit, pointsLoop_eq, hprecs, recsToResult, Except.isOk, Except.toBool]
      · simp [decode_json_bboxes, hd, ht, hit, bboxesLoop_eq, hbrecs, recsToResult, Except.isOk, Except.toBool]

/-- C1 witness: the amended theorem applied to a concrete list
payload of mappings. -/
theorem claim_C1_witness :
    safePayloadB (safe_json_load "[\x7b\"point_2d\": [1, 2]\x7d]") = true ∧
    payloadNoOverflowB (safe_json_load "[\x7b\"point_2d\": [1, 2]\x7d]") = true ∧
    (decode_json_points "[\x7b\"point_2d\": [1, 2]\x7d]").isOk = true :=
  ⟨rfl, rfl, (claim_C1 "[\x7b\"point_2d\": [1, 2]\x7d]" rfl rfl).1⟩

/-- C2, counterexample: the claim "for every input text,
`decode_json_points` returns a pair of sequences" is false: on the
input `true` — valid JSON whose payload is a truthy non-iterable —
the function raises `TypeError` instead of returning. -/
theorem claim_C2_cex :
    decode_json_points "true" = .error PyErr.typeError ∧
    (decode_json_points "true").isOk = false :=
  ⟨rfl, rfl⟩

/-- C2 (amended): whenever `decode_json_points` (resp.
`decode_json_bboxes`) returns normally, it returns a pair of
sequences of equal length; and both functions return `([], [])`
whenever the normalized payload is absent (parse failure) or falsy
(in particular empty). -/
theorem claim_C2 :
    (∀ (t : String) (ps : List (List PyFloat)) (ls : List String),
       decode_json_points t = .ok (ps, ls) → ps.length = ls.length) ∧
    (∀ (t : String) (bs : List (List PyFloat)) (ls : List String),
       decode_json_bboxes t = .ok (bs, ls) → bs.length = ls.length) ∧
    (∀ t : String, safe_json_load t = none →
       decode_json_points t = .ok ([], []) ∧
       decode_json_bboxes t = .ok ([], [])) ∧
    (∀ (t : String) (d : Json), safe_json_load t = some d →
       pyTruthy d = false →
       decode_json_points t = .ok ([], []) ∧
       decode_json_bboxes t = .ok ([], [])) := by
  refine ⟨?_, ?_, ?_, ?_⟩
  · intro t ps ls h
    rw [decode_json_points] at h
    cases hd : safe_json_load t with
    | none =>
      rw [hd] at h
      simp at h
      obtain ⟨h1, h2⟩ := h
      subst h1
      subst h2
      rfl
    | some data =>
      rw [hd] at h
      cases ht : pyTruthy data with
      | false =>
        simp [ht] at h
        obtain ⟨h1, h2⟩ := h
        subst h1
        subst h2
        rfl
      | true =>
        simp [ht] at h
        cases hit : pyToItems data with
        | error e => rw [hit] at h; simp at h
        | ok items =>
          rw [hit] at h
          exact pointsLoop_lengths items ps ls h
  · intro t bs ls h
    rw [decode_json_bboxes] at h
    cases hd : safe_json_load t with
    | none =>
      rw [hd] at h
      simp at h
      obtain ⟨h1, h2⟩ := h
      subst h1
      subst h2
      rfl
    | some data =>
      rw [hd] at h
      cases ht : pyTruthy data with
      | false =>
        simp [ht] at h
        obtain ⟨h1, h2⟩ := h
        subst h1
        subst h2
        rfl
      | true =>
        simp [ht] at h
        cases hit : pyToItems data with
        | error e => rw [hit] at h; simp at h
        | ok items =>
          rw [hit] at h
          exact bboxesLoop_lengths items bs ls h
  · intro t h
    constructor <;> simp [decode_json_points, decode_json_bboxes, h]
  · intro t d h ht
    constructor <;> simp [decode_json_points, decode_json_bboxes, h, ht]

/-- C2 witness: equal lengths at a concrete accepted record. -/
theorem claim_C2_witness :
    decode_json_points "[\x7b\"point_2d\": [1, 2]\x7d]" =
      .ok ([[pyF 1 0, pyF 2 0]], ["point_1"]) ∧
    ([[pyF 1 0, pyF 2 0]] : List (List PyFloat)).length =
      (["point_1"] : List String).length :=
  ⟨rfl, claim_C2.1 "[\x7b\"point_2d\": [1, 2]\x7d]" [[pyF 1 0, pyF 2 0]]
    ["point_1"] rfl⟩

/-- C3: when an accepted record has no explicit label field, its
synthesized label is `point_<k>` (resp. `bbox_<k>`) where `k` is its
1-based position in the output sequence — the count of records
accepted so far — not its position in the input; skipped elements do
not advance the counter.  Stated over the record list `pointRecs` /
`bboxRecs` of accepted elements: the label column is `mkLabels`, and
its entry at output index `k` for a record without a label field is
the prefix followed by `k + 1`.  The spec's own example (an element
without the coordinate key preceding a valid point) yields one point
labelled `point_1`. -/
theorem claim_C3 :
    (∀ (items : List Json) (recs : List (List PyFloat × Option Json))
       (k : Nat) (r : List PyFloat × Option Json),
       pointRecs items = .ok recs → recs[k]? = some r → r.2 = none →
       ∃ ls, pointsLoop items [] [] = .ok (recs.map Prod.fst, ls) ∧
         ls[k]? = some ("point_" ++ toString (k + 1))) ∧
    (∀ (items : List Json) (recs : List (List PyFloat × Option Json))
       (k : Nat) (r : List PyFloat × Option Json),
       bboxRecs items = .ok recs → recs[k]? = some r → r.2 = none →
       ∃ ls, bboxesLoop items [] [] = .ok (recs.map Prod.fst, ls) ∧
         ls[k]? = some ("bbox_" ++ toString (k + 1))) ∧
    decode_json_points "[\x7b\"x\":1\x7d, \x7b\"point_2d\":[0.2,0.3]\x7d]" =
      .ok ([[pyF 2 (-1), pyF 3 (-1)]], ["point_1"]) := by
  refine ⟨?_, ?_, rfl⟩
  · intro items recs k r hrecs hk hnone
    refine ⟨mkLabels "point_" 0 recs, ?_, ?_⟩
    · rw [pointsLoop_eq, hrecs]
      simp [recsToResult]
    · have := mkLabels_getElem "point_" recs 0 k r hk hnone
      simpa using this
  · intro items recs k r hrecs hk hnone
    refine ⟨mkLabels "bbox_" 0 recs, ?_, ?_⟩
    · rw [bboxesLoop_eq, hrecs]
      simp [recsToResult]
    · have := mkLabels_getElem "bbox_" recs 0 k r hk hnone
      simpa using this

/-- C3 witness: a single unlabelled accepted record gets label
`point_1`. -/
theorem claim_C3_witness :
    ∃ ls, pointsLoop
        [Json.obj [("point_2d", Json.arr [Json.num (PyNum.int 1), Json.num (PyNum.int 2)])]]
        [] [] = .ok ([[pyF 1 0, pyF 2 0]], ls) ∧
      ls[0]? = some ("point_" ++ toString 1) :=
  claim_C3.1
    [Json.obj [("point_2d", Json.arr [Json.num (PyNum.int 1), Json.num (PyNum.int 2)])]]
    [([pyF 1 0, pyF 2 0], none)] 0 ([pyF 1 0, pyF 2 0], none) rfl rfl rfl

/-- C4, counterexample: the claim says the point extractor emits
exactly the elements whose `point_2d` holds exactly 2 numeric values;
but the element `\x7b"point_2d": ["1", "2"]\x7d`, whose coordinates
are strings rather than numbers (and so is not well-formed in the
claim's sense — `wellFormedPointC4` rejects it), is emitted by the
code as the point `[1.0, 2.0]`. -/
theorem claim_C4_cex :
    decode_json_points "[\x7b\"point_2d\": [\"1\", \"2\"]\x7d]" =
      .ok ([[pyF 1 0, pyF 2 0]], ["point_1"]) ∧
    safe_json_load "[\x7b\"point_2d\": [\"1\", \"2\"]\x7d]" =
      some (Json.arr [Json.obj
        [("point_2d", Json.arr [Json.str "1", Json.str "2"])]]) ∧
    [Json.obj [("point_2d", Json.arr [Json.str "1", Json.str "2"])]].filterMap
        wellFormedPointC4 = [] :=
  ⟨rfl, rfl, rfl⟩

/-- C4 (amended): for every payload list, the point loop emits
exactly the elements accepted by the code's per-element procedure —
subscript `point_2d`, unpack into exactly two items, convert each
with Python `float` (accepting numbers, booleans and numeric strings,
not only numeric values) — in input order, and likewise the bbox
loop with its exactly-4 arity check; a box element with only 3
coordinates is skipped entirely, emitting neither coordinates nor a
label. -/
theorem claim_C4 :
    (∀ (items : List Json) (ps : List (List PyFloat)) (ls : List String),
       pointsLoop items [] [] = .ok (ps, ls) →
       ps = items.filterMap acceptedPointCoords) ∧
    (∀ (items : List Json) (bs : List (List PyFloat)) (ls : List String),
       bboxesLoop items [] [] = .ok (bs, ls) →
       bs = items.filterMap acceptedBboxCoords) ∧
    decode_json_bboxes "[\x7b\"bbox_2d\": [1,2,3]\x7d]" = .ok ([], []) := by
  refine ⟨?_, ?_, rfl⟩
  · intro items ps ls h
    rw [pointsLoop_eq] at h
    cases hr : pointRecs items with
    | error e => rw [hr] at h; simp [recsToResult] at h
    | ok recs =>
      rw [hr] at h
      simp only [recsToResult, List.nil_append, Except.ok.injEq,
        Prod.mk.injEq] at h
      rw [← h.1]
      exact pointRecs_map_fst items recs hr
  · intro items bs ls h
    rw [bboxesLoop_eq] at h
    cases hr : bboxRecs items with
    | error e => rw [hr] at h; simp [recsToResult] at h
    | ok recs =>
      rw [hr] at h
      simp only [recsToResult, List.nil_append, Except.ok.injEq,
        Prod.mk.injEq] at h
      rw [← h.1]
      exact bboxRecs_map_fst items recs hr

/-- C4 witness: the emitted coordinates of a concrete run equal the
per-element filter of the input. -/
theorem claim_C4_witness :
    ([[pyF 1 0, pyF 2 0]] : List (List PyFloat)) =
      [Json.obj [("point_2d", Json.arr [Json.num (PyNum.int 1), Json.num (PyNum.int 2)])]].filterMap
        acceptedPointCoords :=
  claim_C4.1
    [Json.obj [("point_2d", Json.arr [Json.num (PyNum.int 1), Json.num (PyNum.int 2)])]]
    [[pyF 1 0, pyF 2 0]] ["point_1"] rfl

/-- C5, counterexample: the claim "on already-valid JSON with no
single quotes and no trailing commas the Normalizer is the identity"
is false, because the trailing-comma regex is textual, not
grammatical: the valid JSON `\x7b"a": ",\x7d"\x7d` (no single quotes,
and no trailing comma at the JSON syntax level — the `,\x7d` sits
inside a string literal) parses directly to a mapping whose value is
the two-character string, but the Normalizer rewrites the `,\x7d`
inside the string literal and returns a different structure. -/
theorem claim_C5_cex :
    (pyJsonLoadsStr "\x7b\"a\": \",\x7d\"\x7d").isSome = true ∧
    ("\x7b\"a\": \",\x7d\"\x7d".data.contains squote) = false ∧
    pyJsonLoadsStr "\x7b\"a\": \",\x7d\"\x7d" =
      some (Json.obj [("a", Json.str ",\x7d")]) ∧
    safe_json_load "\x7b\"a\": \",\x7d\"\x7d" =
      some (Json.obj [("a", Json.str "\x7d")]) ∧
    Json.obj [("a", Json.str ",\x7d")] ≠ Json.obj [("a", Json.str "\x7d")] :=
  ⟨rfl, rfl, rfl, rfl, by simp⟩

/-- C5 (amended): the Normalizer returns exactly what direct JSON
parsing returns on every input that contains no single quote, no
occurrence of the fence opening marker, and no textual occurrence of
a comma followed by whitespace and a closing brace or bracket — the
counterexample forces the no-occurrence conditions to be textual
(holding also inside string literals) rather than grammatical. -/
theorem claim_C5 (t : String)
    (h1 : t.data.contains squote = false)
    (h2 : hasSub fenceTag t.data = false)
    (h3 : hasCommaClose rbraceC t.data = false)
    (h4 : hasCommaClose ']' t.data = false) :
    safe_json_load t = pyJsonLoadsStr t := by
  have hq : squote ∉ t.data := by
    intro hm
    rw [List.contains_eq_any_beq] at h1
    have : t.data.any (fun c => squote == c) = true :=
      List.any_eq_true.mpr ⟨squote, hm, by simp⟩
    rw [this] at h1
    cases h1
  rw [safe_json_load, fenceSearch_none t.data h2]
  rw [repairParse, quoteFix_id t.data hq, stripComma_id rbraceC t.data h3,
    stripComma_id ']' t.data h4]
  rfl

/-- C5 witness: the amended theorem at a plain valid JSON input. -/
theorem claim_C5_witness :
    safe_json_load "[1, 2]" = pyJsonLoadsStr "[1, 2]" ∧
    pyJsonLoadsStr "[1, 2]" =
      some (Json.arr [Json.num (PyNum.int 1), Json.num (PyNum.int 2)]) :=
  ⟨claim_C5 "[1, 2]" rfl rfl rfl rfl, rfl⟩

/-- C6: when the text contains a fenced `json` block the Normalizer
replaces the working text with the trimmed content of the first such
block before the repair steps (`safe_json_load` equals the repair
pipeline on the fence capture), and uses the whole text unchanged
otherwise; concretely, the capture is the trimmed fence content, the
first of two blocks wins, and malformed-JSON-in-a-fence surrounded
by prose is isolated and parsed, yielding one point. -/
theorem claim_C6 :
    (∀ (t : String) (c : List Char), fenceSearch t.data = some c →
       safe_json_load t = repairParse c) ∧
    (∀ t : String, fenceSearch t.data = none →
       safe_json_load t = repairParse t.data) ∧
    fenceSearch ("before ```json  \x7b\"k\": 1\x7d  ``` after").data =
      some ("\x7b\"k\": 1\x7d").data ∧
    fenceSearch ("```json 1 ``` ```json 2 ```").data = some ("1").data ∧
    decode_json_points "Sure! ```json\n\x7b\"point_2d\": [0.1, 0.2]\x7d\n``` thanks" =
      .ok ([[pyF 1 (-1), pyF 2 (-1)]], ["point_1"]) := by
  refine ⟨?_, ?_, rfl, rfl, rfl⟩
  · intro t c h
    rw [safe_json_load, h]
  · intro t h
    rw [safe_json_load, h]

/-- C6 witness: the first conjunct at a concrete fenced input. -/
theorem claim_C6_witness :
    safe_json_load "x ```json 1 ``` y" = repairParse ("1").data :=
  claim_C6.1 "x ```json 1 ``` y" ("1").data rfl

/-- C7: the quote-repair step rewrites every single-quoted span with
no embedded single quote to double-quoted form (each span is opened
by the first unconsumed quote, closed at the next, and scanning
resumes after it), so the single-quoted input
`\x7b'bbox_2d': [0,0,1,1], 'label': 'cat'\x7d` parses successfully
and `decode_json_bboxes` yields exactly the box `[0,0,1,1]` labelled
`cat`. -/
theorem claim_C7 :
    (∀ (pre s post : List Char), squote ∉ pre → squote ∉ s →
       quoteFix (pre ++ (squote :: (s ++ (squote :: post)))) =
         pre ++ ('"' :: (s ++ ('"' :: quoteFix post)))) ∧
    decode_json_bboxes "\x7b\x27bbox_2d\x27: [0,0,1,1], \x27label\x27: \x27cat\x27\x7d" =
      .ok ([[pyF 0 0, pyF 0 0, pyF 1 0, pyF 1 0]], ["cat"]) :=
  ⟨quoteFix_append, rfl⟩

/-- C7 witness: the span rewrite at concrete text. -/
theorem claim_C7_witness :
    quoteFix ("ab".data ++ (squote :: ("cd".data ++ (squote :: "ef".data)))) =
      "ab".data ++ ('"' :: ("cd".data ++ ('"' :: quoteFix "ef".data))) :=
  claim_C7.1 "ab".data "cd".data "ef".data (by decide) (by decide)

/-- C8: the Normalizer strips a trailing comma immediately preceding
a closing brace or bracket (modulo whitespace, with scanning resuming
after the closing character), so the input
`[\x7b"point_2d":[0.5,0.5]\x7d,]` parses successfully and
`decode_json_points` yields exactly the point `[0.5, 0.5]` labelled
`point_1`. -/
theorem claim_C8 :
    (∀ ws rest : List Char, (∀ c ∈ ws, isReWs c = true) →
       stripComma rbraceC (',' :: (ws ++ (rbraceC :: rest))) =
         rbraceC :: stripComma rbraceC rest) ∧
    (∀ ws rest : List Char, (∀ c ∈ ws, isReWs c = true) →
       stripComma ']' (',' :: (ws ++ (']' :: rest))) =
         ']' :: stripComma ']' rest) ∧
    decode_json_points "[\x7b\"point_2d\":[0.5,0.5]\x7d,]" =
      .ok ([[pyF 5 (-1), pyF 5 (-1)]], ["point_1"]) :=
  ⟨fun ws rest h => stripComma_match rbraceC rfl ws rest h,
   fun ws rest h => stripComma_match ']' rfl ws rest h, rfl⟩

/-- C8 witness: the strip at a concrete comma-whitespace-brace. -/
theorem claim_C8_witness :
    stripComma rbraceC (',' :: ([' '] ++ (rbraceC :: "x".data))) =
      rbraceC :: stripComma rbraceC "x".data :=
  claim_C8.1 [' '] "x".data (by decide)

/-- C9: the empty input yields `([], [])` from both extractors, and
on any input whose parse fails after all repair heuristics (the
Normalizer returns the "no payload" sentinel) both extractors return
`([], [])` without raising — exactly as for empty input. -/
theorem claim_C9 :
    (decode_json_points "" = .ok ([], []) ∧
     decode_json_bboxes "" = .ok ([], [])) ∧
    (∀ t : String, safe_json_load t = none →
       decode_json_points t = .ok ([], []) ∧
       decode_json_bboxes t = .ok ([], [])) :=
  ⟨⟨rfl, rfl⟩,
   fun t h => ⟨by rw [decode_json_points, h], by rw [decode_json_bboxes, h]⟩⟩

/-- C9 witness: a concrete unparseable input. -/
theorem claim_C9_witness :
    safe_json_load "no json here" = none ∧
    decode_json_points "no json here" = .ok ([], []) :=
  ⟨rfl, (claim_C9.2 "no json here" rfl).1⟩

/-- C10: an element whose `point_2d` (resp. `bbox_2d`) entries are
strings convertible to floats is accepted, not skipped: the loop run
on such an element equals the run on the element with the converted
numeric values, and yields exactly that record; concretely,
`point_2d: ["0.5", "0.5"]` yields the point `[0.5, 0.5]` and
`bbox_2d: ["1","2","3","4"]` yields the box `[1,2,3,4]`. -/
theorem claim_C10 :
    (∀ (s1 s2 : String) (q1 q2 : PyFloat),
       pyFloatOfString s1 = some q1 → pyFloatOfString s2 = some q2 →
       pointsLoop [Json.obj [("point_2d", Json.arr [Json.str s1, Json.str s2])]] [] [] =
         pointsLoop [Json.obj [("point_2d", Json.arr [Json.num (PyNum.float q1), Json.num (PyNum.float q2)])]] [] [] ∧
       pointsLoop [Json.obj [("point_2d", Json.arr [Json.str s1, Json.str s2])]] [] [] =
         .ok ([[q1, q2]], ["point_1"])) ∧
    decode_json_points "[\x7b\"point_2d\": [\"0.5\", \"0.5\"]\x7d]" =
      .ok ([[pyF 5 (-1), pyF 5 (-1)]], ["point_1"]) ∧
    decode_json_bboxes "[\x7b\"bbox_2d\": [\"1\", \"2\", \"3\", \"4\"]\x7d]" =
      .ok ([[pyF 1 0, pyF 2 0, pyF 3 0, pyF 4 0]], ["bbox_1"]) := by
  refine ⟨?_, rfl, rfl⟩
  intro s1 s2 q1 q2 h1 h2
  have hstr : pointsLoop
      [Json.obj [("point_2d", Json.arr [Json.str s1, Json.str s2])]] [] [] =
      .ok ([[q1, q2]], ["point_1"]) := by
    simp [pointsLoop, pyContains, pointTry, pySubscript, unpack2, pyFloat,
      h1, h2, bind, Except.bind, pure, Except.pure, pyDictGet, recLabel,
      List.find?]
    rfl
  have hnum : pointsLoop
      [Json.obj [("point_2d", Json.arr [Json.num (PyNum.float q1), Json.num (PyNum.float q2)])]] [] [] =
      .ok ([[q1, q2]], ["point_1"]) := by
    simp [pointsLoop, pyContains, pointTry, pySubscript, unpack2, pyFloat,
      bind, Except.bind, pure, Except.pure, pyDictGet, recLabel, List.find?]
    rfl
  exact ⟨hstr.trans hnum.symm, hstr⟩

/-- C10 witness: the general conjunct at the numeric string "0.5". -/
theorem claim_C10_witness :
    pyFloatOfString "0.5" = some (pyF 5 (-1)) ∧
    pointsLoop
      [Json.obj [("point_2d", Json.arr [Json.str "0.5", Json.str "0.5"])]] [] [] =
      .ok ([[pyF 5 (-1), pyF 5 (-1)]], ["point_1"]) :=
  ⟨by rfl, (claim_C10.1 "0.5" "0.5" (pyF 5 (-1)) (pyF 5 (-1)) (by rfl) (by rfl)).2⟩

end VLM
